import Mathlib

/-!
Verification of the archive-initialization layer of Shadow-of-the-West
(`Source/init.cpp`): the MPQ search-path builder, the archive resolver
`LoadMPQ`, and the load/teardown orchestration phases.

The embedding is shallow: the filesystem and the MPQ reader are modelled as
an oracle `op : String → OpenResult` giving, for each absolute path, the
outcome of `MpqArchive::Open` (the reader itself lives outside the provided
sources; its contract — a handle on success, error code `0` for an absent
file, a nonzero structural error code otherwise — is taken from the spec's
description of the Archive Reader interface).  Logging, dialogs and process
termination are modelled as explicit event lists.
-/

namespace DevilutionInit

/-- Outcome of a single `MpqArchive::Open(path, error)` call, modelled from
the spec's Archive Reader contract: `success` yields a handle; `failure 0`
means the file is absent; `failure code` with `code ≠ 0` is a structural
error. `Open` writes the error code on every failing call. -/
inductive OpenResult where
  | success : OpenResult
  | failure (code : Int) : OpenResult
deriving Repr, DecidableEq

/-- State of the `LoadMPQ` loop in `init.cpp` lines 83-103: the handle found
(modelled as the absolute path that opened), the absolute paths attempted in
order, the paths logged at error severity, and the final value of the
`error` variable after the loop. -/
structure MpqProbe where
  handle : Option String
  attempts : List String
  errorLogs : List String
  finalError : Int
deriving Repr, DecidableEq

/-- The `for (const auto &path : paths)` loop of `LoadMPQ`
(`init.cpp:88-97`), with the `error` variable threaded through: each
iteration builds `mpqAbsPath = path + mpqName`, calls `Open`, returns on
success, logs an error-severity diagnostic when the error code is nonzero,
and continues. -/
def loadMPQGo (op : String → OpenResult) (mpqName : String) :
    List String → Int → MpqProbe
  | [], error => { handle := none, attempts := [], errorLogs := [], finalError := error }
  | path :: rest, _error =>
    let mpqAbsPath := path ++ mpqName
    match op mpqAbsPath with
    | .success =>
      { handle := some mpqAbsPath, attempts := [mpqAbsPath], errorLogs := [], finalError := 0 }
    | .failure code =>
      let r := loadMPQGo op mpqName rest code
      { handle := r.handle
        attempts := mpqAbsPath :: r.attempts
        errorLogs := (if code = 0 then [] else [mpqAbsPath]) ++ r.errorLogs
        finalError := r.finalError }

/-- Observable result of one `LoadMPQ` call: handle, attempted paths,
error-severity logs, and whether the low-severity `Missing:` line was
emitted (`init.cpp:98-100`: only when the loop ends without success and the
last-written error code is `0`). -/
structure LoadResult where
  handle : Option String
  attempts : List String
  errorLogs : List String
  missingLogged : Bool
deriving Repr, DecidableEq

/-- Function `LoadMPQ` of `init.cpp:83-103`: probe every search path for
`mpqName`, in order, returning the first successful open; the `error`
variable starts at `0`. -/
def LoadMPQ (op : String → OpenResult) (paths : List String) (mpqName : String) :
    LoadResult :=
  let r := loadMPQGo op mpqName paths 0
  { handle := r.handle
    attempts := r.attempts
    errorLogs := r.errorLogs
    missingLogged := r.handle.isNone && (r.finalError == 0) }

/-- Specification-side probe: scan a list of absolute candidate paths and
return the first one that opens, together with the list of paths attempted
(every candidate up to and including the successful one). -/
def firstOpen (op : String → OpenResult) : List String → Option String × List String
  | [] => (none, [])
  | a :: rest =>
    match op a with
    | .success => (some a, [a])
    | .failure _ =>
      let r := firstOpen op rest
      (r.1, a :: r.2)

/-- The base-content resolution of `LoadGameArchives` (`init.cpp:259-263`):
try `DIABDAT.MPQ` across all paths, and only if that fails try
`diabdat.mpq` across all paths.  Returns the handle and the concatenated
attempt sequence. -/
def diabdatResolve (op : String → OpenResult) (paths : List String) :
    Option String × List String :=
  let r1 := LoadMPQ op paths "DIABDAT.MPQ"
  match r1.handle with
  | some h => (some h, r1.attempts)
  | none =>
    let r2 := LoadMPQ op paths "diabdat.mpq"
    (r2.handle, r1.attempts ++ r2.attempts)

/-- Modelled from the spec: `SplitByChar` (`utils/str_split.hpp`) is not in
the provided sources; the spec describes the environment variable as a
colon-separated list of extra search roots, so we split on the separator
keeping empty segments. -/
def splitByChar (s : String) (c : Char) : List String :=
  s.split (· == c)

/-- The base/pref/config portion of `GetMPQSearchPaths`
(`init.cpp:108-115`): push `BasePath()`, push `PrefPath()`, pop it when it
equals the base, push `ConfigPath()`, pop it when it duplicates an earlier
entry (the C++ compares `paths[0] == paths[1]` and, when three entries are
present, also against `paths[2]`). -/
def corePaths (base pref config : String) : List String :=
  let paths1 := [base, pref]
  let paths2 := if paths1.get? 0 = paths1.get? 1 then paths1.dropLast else paths1
  let paths3 := paths2 ++ [config]
  if paths3.get? 0 = paths3.get? 1
      ∨ (paths3.length = 3 ∧ (paths3.get? 0 = paths3.get? 2 ∨ paths3.get? 1 = paths3.get? 2)) then
    paths3.dropLast
  else
    paths3

/-- The Unix platform-extra roots of `GetMPQSearchPaths`
(`init.cpp:117-132`): each `XDG_DATA_DIRS` segment, slash-terminated, with
the package suffix appended; two `/usr` defaults when the variable is
unset.  No de-duplication is performed on these entries. -/
def xdgSearchPaths (xdgDataDirs : Option String) : List String :=
  match xdgDataDirs with
  | some dirs =>
    (splitByChar dirs ':').map fun path =>
      let fullPath := if ¬path.isEmpty ∧ path.back ≠ '/' then path ++ "/" else path
      fullPath ++ "shadowed-pilgrims/shadow-of-the-west/"
  | none =>
    ["/usr/local/share/shadowed-pilgrims/shadow-of-the-west/",
      "/usr/share/shadowed-pilgrims/shadow-of-the-west/"]

/-- Function `GetMPQSearchPaths` of `init.cpp:106-158` (Unix build): the
deduplicated base/pref/config entries, then the platform extras, then the
empty string standing for the current working directory (`init.cpp:144`). -/
def GetMPQSearchPaths (base pref config : String) (xdgDataDirs : Option String) :
    List String :=
  corePaths base pref config ++ xdgSearchPaths xdgDataDirs ++ [""]

/-- User-visible events of the game-archive phase: a blocking insert-media
prompt (`InsertCDDlg`), the blocking missing-MPQs error dialog
(`UiErrorOkDialog` at `init.cpp:288`), and process termination
(`diablo_quit`). -/
inductive Event where
  | insertCD (archiveName : String) : Event
  | errorDialog : Event
  | quit (code : Int) : Event
deriving Repr, DecidableEq

/-- The process-wide archive-handle slots of `init.cpp:52-62` together with
the class-pack feature flags `gbBard` / `gbBarbarian` (declared outside the
provided sources, mutated at `init.cpp:279-283`).  A handle is modelled as
the absolute path it was opened from; `none` is the explicit empty state. -/
structure InitState where
  spawn_mpq : Option String
  diabdat_mpq : Option String
  hellfire_mpq : Option String
  hfmonk_mpq : Option String
  hfbard_mpq : Option String
  hfbarb_mpq : Option String
  hfmusic_mpq : Option String
  hfvoice_mpq : Option String
  sotw_mpq : Option String
  lang_mpq : Option String
  font_mpq : Option String
  gbBard : Bool
  gbBarbarian : Bool
deriving Repr, DecidableEq

/-- Function `init_cleanup` of `init.cpp:162-190` (packed build), restricted
to the state it mutates: every archive slot is reset to the empty state.
The multiplayer save-out and `NetClose` calls touch no archive state and
are outside this model. -/
def init_cleanup (st : InitState) : InitState :=
  { st with
    spawn_mpq := none
    diabdat_mpq := none
    hellfire_mpq := none
    hfmonk_mpq := none
    hfbard_mpq := none
    hfbarb_mpq := none
    hfmusic_mpq := none
    hfvoice_mpq := none
    lang_mpq := none
    font_mpq := none
    sotw_mpq := none }

/-- Function `LoadLanguageArchive` of `init.cpp:207-225` (packed build),
acting on the `lang_mpq` slot: the slot is first reset to empty, then, only
when the language code is not `"en"`, `code + ".mpq"` is resolved over the
search paths.  The previous slot value is the last argument and is
discarded by the initial reset. -/
def LoadLanguageArchive (op : String → OpenResult) (paths : List String)
    (code : String) (prevLang : Option String) : Option String :=
  let lang0 : Option String := none
  let _ := prevLang
  if code ≠ "en" then
    (LoadMPQ op paths (code ++ ".mpq")).handle
  else
    lang0

/-- Function `LoadGameArchives` of `init.cpp:227-292`, packed
(`!UNPACKED_MPQS`) branch.  `titleOk` models the result of the
`FindAsset("ui_art\x5c\x5ctitle.pcx").ok()` liveness probe (the asset layer is
outside the provided sources); `headless` models `HeadlessMode`.
`InsertCDDlg` is modelled as the emission of its prompt event; its body is
outside the provided sources, so control flow continues past it exactly as
in the caller's code.  Returns the updated state and the emitted events in
order. -/
def LoadGameArchives (op : String → OpenResult) (paths : List String)
    (headless titleOk : Bool) (st : InitState) : InitState × List Event :=
  let diabdat := diabdatResolve op paths
  let ev0 : List Event := if !headless && !titleOk then [.insertCD "diabdat.mpq"] else []
  let hellfire := (LoadMPQ op paths "hellfire.mpq").handle
  let ev1 : List Event := if hellfire.isNone then [.insertCD "hellfire.mpq"] else []
  let hfmonk := (LoadMPQ op paths "hfmonk.mpq").handle
  let hfbard := (LoadMPQ op paths "hfbard.mpq").handle
  let bard := if hfbard.isSome then true else st.gbBard
  let hfbarb := (LoadMPQ op paths "hfbarb.mpq").handle
  let barbarian := if hfbarb.isSome then true else st.gbBarbarian
  let hfmusic := (LoadMPQ op paths "hfmusic.mpq").handle
  let hfvoice := (LoadMPQ op paths "hfvoice.mpq").handle
  let ev2 : List Event :=
    if hfmonk.isNone || hfmusic.isNone || hfvoice.isNone then [.errorDialog, .quit 1] else []
  ({ st with
      diabdat_mpq := diabdat.1
      hellfire_mpq := hellfire
      hfmonk_mpq := hfmonk
      hfbard_mpq := hfbard
      hfbarb_mpq := hfbarb
      hfmusic_mpq := hfmusic
      hfvoice_mpq := hfvoice
      gbBard := bard
      gbBarbarian := barbarian },
    ev0 ++ ev1 ++ ev2)

/-- Function `FindUnpackedMpqData` of `init.cpp:68-81`: probe each search
path for the directory `path + mpqName + DirectorySeparator` (the Unix
separator `/`), returning the first hit.  `fileExists` models the
`FileExists` filesystem call (outside the provided sources). -/
def FindUnpackedMpqData (fileExists : String → Bool) (paths : List String)
    (mpqName : String) : Option String :=
  match paths with
  | [] => none
  | path :: rest =>
    let targetPath := path ++ mpqName ++ "/"
    if fileExists targetPath then some targetPath
    else FindUnpackedMpqData fileExists rest mpqName

/-- Outcome of the unpacked-directory (`UNPACKED_MPQS`) branch of
`LoadGameArchives`: either an insert-media prompt terminated the run before
the hellfire probes, or the phase completed.  `derefAbsent` records whether
the unconditional `*hellfire_data_path` dereferences at `init.cpp:243-247`
were evaluated while the path optional was empty. -/
inductive UnpackedOutcome where
  | stoppedAtPrompt (events : List Event) : UnpackedOutcome
  | completed (events : List Event) (diabdat hellfire : Option String)
      (derefAbsent : Bool) (gbBard gbBarbarian : Bool) (fatal : Bool) : UnpackedOutcome
deriving Repr, DecidableEq

/-- Function `LoadGameArchives` of `init.cpp:227-257`, unpacked
(`UNPACKED_MPQS`) branch.  `insertCDReturns` models whether `InsertCDDlg`
(outside the provided sources) can return to its caller: when `false`, a
prompt fired for a missing archive terminates the run, per the spec's
blocking recovery-prompt contract.  In this mode `gbBard` and `gbBarbarian`
are unconditionally `false` (`init.cpp:251-252`). -/
def LoadGameArchivesUnpacked (fileExists : String → Bool) (paths : List String)
    (headless titleOk insertCDReturns : Bool) : UnpackedOutcome :=
  let diabdat := FindUnpackedMpqData fileExists paths "diabdat"
  let needTitlePrompt := !headless && !titleOk
  let ev0 : List Event := if needTitlePrompt then [.insertCD "diabdat.mpq"] else []
  if needTitlePrompt && !insertCDReturns then
    .stoppedAtPrompt ev0
  else
    let hellfire := FindUnpackedMpqData fileExists paths "hellfire"
    let ev1 : List Event := ev0 ++ (if hellfire.isNone then [.insertCD "hellfire"] else [])
    if hellfire.isNone && !insertCDReturns then
      .stoppedAtPrompt ev1
    else
      let derefAbsent := hellfire.isNone
      let hf := hellfire.getD ""
      let hasMonk := fileExists (hf ++ "plrgfx/monk/mha/mhaas.clx")
      let hasMusic := fileExists (hf ++ "music/dlvlf.wav") || fileExists (hf ++ "music/dlvlf.mp3")
      let hasVoice := fileExists (hf ++ "sfx/hellfire/cowsut1.wav")
        || fileExists (hf ++ "sfx/hellfire/cowsut1.mp3")
      let fatal := !hasMonk || !hasMusic || !hasVoice
      let ev2 := ev1 ++ (if fatal then [Event.errorDialog, Event.quit 1] else [])
      .completed ev2 diabdat hellfire derefAbsent false false fatal

/-- Projection: did the unpacked game-archive phase dereference the
hellfire data path while it was empty? -/
def derefAbsentOf : UnpackedOutcome → Bool
  | .stoppedAtPrompt _ => false
  | .completed _ _ _ derefAbsent _ _ _ => derefAbsent

/-- Sample filesystem for the variant-order scenario: `DIABDAT.MPQ` absent
at `a/` but present at `b/`, and `diabdat.mpq` present at `a/`. -/
def sampleOpVariant : String → OpenResult := fun s =>
  if s = "b/DIABDAT.MPQ" then .success
  else if s = "a/diabdat.mpq" then .success
  else .failure 0

/-- Sample filesystem with a structurally corrupt `hellfire.mpq` at `a/`
(error code 7) and a valid one at `b/`. -/
def sampleOpStructural : String → OpenResult := fun s =>
  if s = "a/hellfire.mpq" then .failure 7
  else if s = "b/hellfire.mpq" then .success
  else .failure 0

/-- Sample filesystem with a structurally corrupt `hellfire.mpq` at `a/`
and nothing anywhere else. -/
def sampleOpCorrupt : String → OpenResult := fun s =>
  if s = "a/hellfire.mpq" then .failure 7
  else .failure 0

/-- Sample filesystem for the game-archive phase: all mandatory expansion
archives present under `d/`, both optional class packs absent. -/
def sampleOpGame : String → OpenResult := fun s =>
  if s = "d/hellfire.mpq" then .success
  else if s = "d/hfmonk.mpq" then .success
  else if s = "d/hfmusic.mpq" then .success
  else if s = "d/hfvoice.mpq" then .success
  else .failure 0

/-- Sample filesystem for the game-archive phase with the voice pack
missing: `hellfire.mpq`, `hfmonk.mpq`, `hfmusic.mpq` present under `d/`,
`hfvoice.mpq` absent everywhere. -/
def sampleOpNoVoice : String → OpenResult := fun s =>
  if s = "d/hellfire.mpq" then .success
  else if s = "d/hfmonk.mpq" then .success
  else if s = "d/hfmusic.mpq" then .success
  else .failure 0

/-- Sample filesystem holding two language packs under `d/`. -/
def sampleOpLang : String → OpenResult := fun s =>
  if s = "d/de.mpq" then .success
  else if s = "d/fr.mpq" then .success
  else .failure 0

/-- Sample process state with every archive slot empty and both class-pack
flags disabled. -/
def emptyState : InitState :=
  { spawn_mpq := none, diabdat_mpq := none, hellfire_mpq := none
    hfmonk_mpq := none, hfbard_mpq := none, hfbarb_mpq := none
    hfmusic_mpq := none, hfvoice_mpq := none, sotw_mpq := none
    lang_mpq := none, font_mpq := none, gbBard := false, gbBarbarian := false }

/-- Sample process state in which a bard pack had been resolved earlier:
`gbBard` is enabled and the slot holds a handle. -/
def bardState : InitState :=
  { emptyState with hfbard_mpq := some "d/hfbard.mpq", gbBard := true }

theorem loadMPQGo_firstOpen (op : String → OpenResult) (mpqName : String) :
    ∀ (paths : List String) (e : Int),
      (loadMPQGo op mpqName paths e).handle
          = (firstOpen op (paths.map (· ++ mpqName))).1
        ∧ (loadMPQGo op mpqName paths e).attempts
          = (firstOpen op (paths.map (· ++ mpqName))).2 := by
  intro paths
  induction paths with
  | nil => intro e; simp [loadMPQGo, firstOpen]
  | cons p rest ih =>
    intro e
    simp only [loadMPQGo, List.map_cons, firstOpen]
    cases hop : op (p ++ mpqName) with
    | success => simp
    | failure code =>
      simp only []
      exact ⟨(ih code).1, by simp [(ih code).2]⟩

theorem LoadMPQ_handle_eq_firstOpen (op : String → OpenResult)
    (paths : List String) (mpqName : String) :
    (LoadMPQ op paths mpqName).handle
      = (firstOpen op (paths.map (· ++ mpqName))).1 :=
  (loadMPQGo_firstOpen op mpqName paths 0).1

theorem LoadMPQ_attempts_eq_firstOpen (op : String → OpenResult)
    (paths : List String) (mpqName : String) :
    (LoadMPQ op paths mpqName).attempts
      = (firstOpen op (paths.map (· ++ mpqName))).2 :=
  (loadMPQGo_firstOpen op mpqName paths 0).2

theorem firstOpen_none_attempts (op : String → OpenResult) :
    ∀ l : List String, (firstOpen op l).1 = none → (firstOpen op l).2 = l := by
  intro l
  induction l with
  | nil => intro _; rfl
  | cons a rest ih =>
    intro h
    simp only [firstOpen] at h ⊢
    cases hop : op a with
    | success => simp [hop] at h
    | failure code =>
      simp only [hop] at h ⊢
      simp [ih h]

theorem firstOpen_append (op : String → OpenResult) (l1 l2 : List String) :
    firstOpen op (l1 ++ l2)
      = match (firstOpen op l1).1 with
        | some a => (some a, (firstOpen op l1).2)
        | none => ((firstOpen op l2).1, l1 ++ (firstOpen op l2).2) := by
  induction l1 with
  | nil =>
    simp only [List.nil_append, firstOpen]
  | cons a rest ih =>
    simp only [List.cons_append, firstOpen, List.append_eq]
    cases hop : op a with
    | success => simp
    | failure code =>
      simp only []
      rw [ih]
      cases hfo : (firstOpen op rest).1 with
      | some b => simp [firstOpen, hop, hfo]
      | none =>
        have := firstOpen_none_attempts op rest hfo
        simp [firstOpen, hop, hfo, this]

theorem LoadMPQ_handle_mem (op : String → OpenResult)
    (paths : List String) (mpqName : String) :
    ∀ h, (LoadMPQ op paths mpqName).handle = some h →
      ∃ p ∈ paths, h = p ++ mpqName := by
  intro h hh
  rw [LoadMPQ_handle_eq_firstOpen] at hh
  -- first, `firstOpen` only returns elements of its input list
  have mem : ∀ l : List String, (firstOpen op l).1 = some h → h ∈ l := by
    intro l
    induction l with
    | nil => intro hx; simp [firstOpen] at hx
    | cons a rest ih =>
      intro hx
      simp only [firstOpen] at hx
      cases hop : op a with
      | success =>
        simp [hop] at hx
        simp [hx]
      | failure code =>
        simp only [hop] at hx
        exact List.mem_cons_of_mem a (ih hx)
  have := mem _ hh
  simp only [List.mem_map] at this
  obtain ⟨p, hp, rfl⟩ := this
  exact ⟨p, hp, rfl⟩

theorem loadMPQGo_append_last (op : String → OpenResult) (mpqName p : String) :
    ∀ (paths : List String) (e : Int),
      (loadMPQGo op mpqName (paths ++ [p]) e).handle = none →
      ∃ c, op (p ++ mpqName) = .failure c
        ∧ (loadMPQGo op mpqName (paths ++ [p]) e).finalError = c := by
  intro paths
  induction paths with
  | nil =>
    intro e h
    simp only [List.nil_append, loadMPQGo] at h ⊢
    cases hop : op (p ++ mpqName) with
    | success => simp [hop] at h
    | failure c => exact ⟨c, rfl, by simp [hop, loadMPQGo]⟩
  | cons q rest ih =>
    intro e h
    simp only [List.cons_append, loadMPQGo] at h ⊢
    cases hop : op (q ++ mpqName) with
    | success => simp [hop] at h
    | failure c =>
      simp only [hop] at h ⊢
      exact ih c h

/-- C1: base-content resolution is variant-major (all paths are probed for
`DIABDAT.MPQ` before any path is probed for `diabdat.mpq`), path-minor, and
stops at the first successful open with no further attempts — it coincides
with a single first-match scan of the variant-major candidate product; in
the scenario where only the second variant exists at the first path and the
first variant exists at the second path, the handle returned is the one for
the first variant at the second path. -/
theorem diabdat_variant_major_first_match :
    (∀ (op : String → OpenResult) (paths : List String),
      diabdatResolve op paths
        = firstOpen op (paths.map (· ++ "DIABDAT.MPQ") ++ paths.map (· ++ "diabdat.mpq")))
  ∧ (∀ (op : String → OpenResult) (P1 P2 : String),
      op (P1 ++ "DIABDAT.MPQ") = .failure 0 →
      op (P2 ++ "DIABDAT.MPQ") = .success →
      (diabdatResolve op [P1, P2]).1 = some (P2 ++ "DIABDAT.MPQ")) := by
  constructor
  · intro op paths
    cases h1 : (firstOpen op (paths.map (· ++ "DIABDAT.MPQ"))).1 with
    | some h =>
      simp only [diabdatResolve, LoadMPQ_handle_eq_firstOpen,
        LoadMPQ_attempts_eq_firstOpen, firstOpen_append, h1]
    | none =>
      simp only [diabdatResolve, LoadMPQ_handle_eq_firstOpen,
        LoadMPQ_attempts_eq_firstOpen, firstOpen_append, h1,
        firstOpen_none_attempts op _ h1]
  · intro op P1 P2 h1 h2
    simp [diabdatResolve, LoadMPQ, loadMPQGo, h1, h2]

/-- Witness: the variant-order theorem applied to the concrete two-path
filesystem `sampleOpVariant`. -/
theorem diabdat_variant_major_first_match_witness :
    (diabdatResolve sampleOpVariant ["a/", "b/"]).1 = some ("b/" ++ "DIABDAT.MPQ") :=
  diabdat_variant_major_first_match.2 sampleOpVariant "a/" "b/" (by decide) (by decide)

/-- C3: an open attempt failing with a nonzero (structural) error code is
logged at error severity naming that absolute path, and probing continues:
with a corrupt archive at the first path and a valid one at the second, the
resolver returns the second path's handle and has logged exactly one
structural diagnostic. -/
theorem structural_error_continues (op : String → OpenResult)
    (P1 P2 mpqName : String) (c : Int)
    (h1 : op (P1 ++ mpqName) = .failure c) (hc : c ≠ 0)
    (h2 : op (P2 ++ mpqName) = .success) :
    (LoadMPQ op [P1, P2] mpqName).handle = some (P2 ++ mpqName)
      ∧ (LoadMPQ op [P1, P2] mpqName).errorLogs = [P1 ++ mpqName] := by
  simp [LoadMPQ, loadMPQGo, h1, h2, hc]

/-- Witness: the structural-error-continues theorem applied to the concrete
filesystem `sampleOpStructural`. -/
theorem structural_error_continues_witness :
    (LoadMPQ sampleOpStructural ["a/", "b/"] "hellfire.mpq").handle
        = some ("b/" ++ "hellfire.mpq")
      ∧ (LoadMPQ sampleOpStructural ["a/", "b/"] "hellfire.mpq").errorLogs
        = ["a/" ++ "hellfire.mpq"] :=
  structural_error_continues sampleOpStructural "a/" "b/" "hellfire.mpq" 7
    (by decide) (by decide) (by decide)

/-- C4 counterexample: with a corrupt copy at the first path and nothing at
the second, the probe fails, exactly one structural diagnostic was logged,
and the low-severity `Missing` line is nevertheless emitted — refuting
"Missing is emitted if and only if no structural errors were seen during
the entire probe sequence" (the code checks only the error code written by
the last open attempt). -/
theorem missing_logged_despite_structural_error :
    (LoadMPQ sampleOpCorrupt ["a/", "b/"] "hellfire.mpq").handle = none
      ∧ (LoadMPQ sampleOpCorrupt ["a/", "b/"] "hellfire.mpq").errorLogs.length = 1
      ∧ (LoadMPQ sampleOpCorrupt ["a/", "b/"] "hellfire.mpq").missingLogged = true := by
  decide

/-- C4 amended: when every open attempt fails, the single low-severity
`Missing` diagnostic is emitted if and only if the final open attempt (the
last search path) reported error code `0` (file absent); a structural error
at an earlier path does not suppress it. -/
theorem missing_iff_last_attempt_absent (op : String → OpenResult)
    (paths : List String) (p mpqName : String)
    (hnone : (LoadMPQ op (paths ++ [p]) mpqName).handle = none) :
    ((LoadMPQ op (paths ++ [p]) mpqName).missingLogged = true
      ↔ op (p ++ mpqName) = .failure 0) := by
  obtain ⟨c, hop, hfin⟩ := loadMPQGo_append_last op mpqName p paths 0 hnone
  simp only [LoadMPQ] at hnone ⊢
  rw [hnone] at *
  simp only [Option.isNone_none, Bool.true_and, hfin]
  constructor
  · intro h
    have : c = 0 := by simpa using h
    rw [hop, this]
  · intro h
    rw [hop] at h
    have : c = 0 := by injection h
    simp [this]

/-- Witness: the amended Missing-diagnostic theorem applied to the concrete
filesystem `sampleOpCorrupt`. -/
theorem missing_iff_last_attempt_absent_witness :
    ((LoadMPQ sampleOpCorrupt (["a/"] ++ ["b/"]) "hellfire.mpq").missingLogged = true
      ↔ sampleOpCorrupt ("b/" ++ "hellfire.mpq") = .failure 0) :=
  missing_iff_last_attempt_absent sampleOpCorrupt ["a/"] "b/" "hellfire.mpq" (by decide)

theorem corePaths_eq (base pref config : String) :
    corePaths base pref config =
      if base = pref then
        (if base = config then [base] else [base, config])
      else if base = config ∨ pref = config then [base, pref]
      else [base, pref, config] := by
  unfold corePaths
  by_cases h1 : base = pref
  · subst h1
    by_cases h2 : base = config <;> simp [h2]
  · by_cases h2 : base = config
    · subst h2
      simp [h1]
    · by_cases h3 : pref = config
      · subst h3
        simp [h1]
      · simp [h1, h2, h3]

/-- C2 counterexample: with the base install directory equal to one of the
built-in `/usr` extra roots — a perfectly ordinary system-wide install —
the search-path list contains that directory twice, refuting "the list
never contains two entries that are exactly string-equal" (the
de-duplication covers only the base/pref/config entries; platform extras
and the CWD entry are appended unchecked). -/
theorem searchPaths_duplicate_entry :
    ¬ (GetMPQSearchPaths "/usr/share/shadowed-pilgrims/shadow-of-the-west/"
        "p/" "c/" none).Nodup := by
  decide

/-- C2 amended: only the base/pref/config entries are de-duplicated against
each other — that portion never contains two string-equal entries — while
the platform extras and the trailing current-working-directory entry are
appended to it without any de-duplication, so the full list can contain
duplicates. -/
theorem corePaths_nodup_extras_appended (base pref config : String)
    (xdg : Option String) :
    (corePaths base pref config).Nodup
      ∧ GetMPQSearchPaths base pref config xdg
        = corePaths base pref config ++ xdgSearchPaths xdg ++ [""] := by
  refine ⟨?_, rfl⟩
  rw [corePaths_eq]
  by_cases h1 : base = pref
  · subst h1
    by_cases h2 : base = config <;> simp [h2]
  · by_cases h2 : base = config ∨ pref = config
    · simp [h1, h2]
    · push_neg at h2
      simp [h1, h2.1, h2.2, not_or]

/-- C9: the builder orders candidates most-authoritative-first — base, then
pref, then config, then the platform extras, with the current-working
directory entry (the empty string) last — and de-duplication keeps the
first occurrence: base/pref/config inputs A, A, B yield the core prefix
[A, B], not [B, A]. -/
theorem searchPaths_order_dedup_keeps_first (A B : String)
    (xdg : Option String) (hAB : A ≠ B) :
    GetMPQSearchPaths A A B xdg = [A, B] ++ xdgSearchPaths xdg ++ [""] := by
  unfold GetMPQSearchPaths
  rw [corePaths_eq]
  simp [hAB]

/-- Witness: the ordering theorem applied to concrete distinct directories
with the environment variable unset. -/
theorem searchPaths_order_dedup_keeps_first_witness :
    GetMPQSearchPaths "A/" "A/" "B/" none = ["A/", "B/"] ++ xdgSearchPaths none ++ [""] :=
  searchPaths_order_dedup_keeps_first "A/" "B/" none (by decide)

/-- C5: when the voice pack resolves nowhere across the search paths while
the expansion archive is present and the base-content liveness probe passed
(or the game is headless), the game-archive phase emits exactly one
blocking recovery prompt — the missing-MPQs dialog that tells the user what
to copy — and then terminates the process with exit status 1. -/
theorem voice_pack_missing_fatal (op : String → OpenResult)
    (paths : List String) (headless titleOk : Bool) (st : InitState)
    (hprompt : headless = true ∨ titleOk = true)
    (hhf : (LoadMPQ op paths "hellfire.mpq").handle.isSome = true)
    (hvoice : (LoadMPQ op paths "hfvoice.mpq").handle = none) :
    (LoadGameArchives op paths headless titleOk st).2
      = [Event.errorDialog, Event.quit 1] := by
  have h0 : (!headless && !titleOk) = false := by
    rcases hprompt with h | h <;> simp [h]
  have h1 : (LoadMPQ op paths "hellfire.mpq").handle.isNone = false := by
    cases hx : (LoadMPQ op paths "hellfire.mpq").handle with
    | none => rw [hx] at hhf; simp at hhf
    | some v => simp
  simp [LoadGameArchives, h0, h1, hvoice]

/-- Witness: the voice-pack-missing theorem applied to the concrete
filesystem `sampleOpNoVoice`. -/
theorem voice_pack_missing_fatal_witness :
    (LoadGameArchives sampleOpNoVoice ["d/"] true true emptyState).2
      = [Event.errorDialog, Event.quit 1] :=
  voice_pack_missing_fatal sampleOpNoVoice ["d/"] true true emptyState
    (Or.inl rfl) (by decide) (by decide)

/-- C6 counterexample: with the bard pack absent everywhere but `gbBard`
already enabled in the prior state, the game-archive phase leaves `gbBard`
at `true` — refuting "for every prior flag state, absence sets the
corresponding feature flag to false" (`init.cpp:279-283` only ever writes
`true` on success and never writes `false`). -/
theorem bard_absent_flag_not_cleared :
    (LoadMPQ sampleOpGame ["d/"] "hfbard.mpq").handle = none
      ∧ ((LoadGameArchives sampleOpGame ["d/"] true true bardState).1).gbBard = true := by
  decide

/-- C6 amended: when both optional class packs are absent but the mandatory
expansion components resolve (and the base-content liveness probe passed or
the game is headless), each class-pack flag keeps its prior value — the
code sets it `true` only on success and never writes it on absence — and
the phase emits no prompt and does not terminate: optional-pack absence
never triggers the fatal missing-MPQs path. -/
theorem class_pack_absent_keeps_flag_no_fatal (op : String → OpenResult)
    (paths : List String) (headless titleOk : Bool) (st : InitState)
    (hprompt : headless = true ∨ titleOk = true)
    (hhf : (LoadMPQ op paths "hellfire.mpq").handle.isSome = true)
    (hbard : (LoadMPQ op paths "hfbard.mpq").handle = none)
    (hbarb : (LoadMPQ op paths "hfbarb.mpq").handle = none)
    (hmonk : (LoadMPQ op paths "hfmonk.mpq").handle.isSome = true)
    (hmusic : (LoadMPQ op paths "hfmusic.mpq").handle.isSome = true)
    (hvoice : (LoadMPQ op paths "hfvoice.mpq").handle.isSome = true) :
    ((LoadGameArchives op paths headless titleOk st).1).gbBard = st.gbBard
      ∧ ((LoadGameArchives op paths headless titleOk st).1).gbBarbarian = st.gbBarbarian
      ∧ (LoadGameArchives op paths headless titleOk st).2 = [] := by
  have h0 : (!headless && !titleOk) = false := by
    rcases hprompt with h | h <;> simp [h]
  have h1 : (LoadMPQ op paths "hellfire.mpq").handle.isNone = false := by
    cases hx : (LoadMPQ op paths "hellfire.mpq").handle with
    | none => rw [hx] at hhf; simp at hhf
    | some v => simp
  have h2 : (LoadMPQ op paths "hfmonk.mpq").handle.isNone = false := by
    cases hx : (LoadMPQ op paths "hfmonk.mpq").handle with
    | none => rw [hx] at hmonk; simp at hmonk
    | some v => simp
  have h3 : (LoadMPQ op paths "hfmusic.mpq").handle.isNone = false := by
    cases hx : (LoadMPQ op paths "hfmusic.mpq").handle with
    | none => rw [hx] at hmusic; simp at hmusic
    | some v => simp
  have h4 : (LoadMPQ op paths "hfvoice.mpq").handle.isNone = false := by
    cases hx : (LoadMPQ op paths "hfvoice.mpq").handle with
    | none => rw [hx] at hvoice; simp at hvoice
    | some v => simp
  simp [LoadGameArchives, h0, h1, h2, h3, h4, hbard, hbarb]

/-- Witness: the amended optional-class-pack theorem applied to the
concrete filesystem `sampleOpGame` starting from the empty state. -/
theorem class_pack_absent_keeps_flag_no_fatal_witness :
    ((LoadGameArchives sampleOpGame ["d/"] true true emptyState).1).gbBard
        = emptyState.gbBard
      ∧ ((LoadGameArchives sampleOpGame ["d/"] true true emptyState).1).gbBarbarian
        = emptyState.gbBarbarian
      ∧ (LoadGameArchives sampleOpGame ["d/"] true true emptyState).2 = [] :=
  class_pack_absent_keeps_flag_no_fatal sampleOpGame ["d/"] true true emptyState
    (Or.inl rfl) (by decide) (by decide) (by decide) (by decide) (by decide) (by decide)

/-- C7: the language-archive phase resets the held language handle before
doing anything else and resolves a locale-named archive only for a
non-default locale, so two successive invocations with different
non-default locales leave a handle determined solely by the second locale;
any handle held afterwards is an absolute path for the second locale's
archive name under one of the search paths. -/
theorem language_reload_holds_second_only (op : String → OpenResult)
    (paths : List String) (st : Option String) (c1 c2 : String)
    (h1 : c1 ≠ "en") (h2 : c2 ≠ "en") (hne : c1 ≠ c2) :
    LoadLanguageArchive op paths c2 (LoadLanguageArchive op paths c1 st)
        = (LoadMPQ op paths (c2 ++ ".mpq")).handle
      ∧ ∀ h, LoadLanguageArchive op paths c2 (LoadLanguageArchive op paths c1 st) = some h →
          ∃ p ∈ paths, h = p ++ (c2 ++ ".mpq") := by
  constructor
  · simp [LoadLanguageArchive, h2]
  · intro h hh
    simp only [LoadLanguageArchive, if_pos h2] at hh
    exact LoadMPQ_handle_mem op paths (c2 ++ ".mpq") h hh

/-- Witness: the language-reload theorem applied to the concrete filesystem
`sampleOpLang` with locales `de` then `fr`. -/
theorem language_reload_holds_second_only_witness :
    LoadLanguageArchive sampleOpLang ["d/"] "fr"
        (LoadLanguageArchive sampleOpLang ["d/"] "de" none)
      = (LoadMPQ sampleOpLang ["d/"] ("fr" ++ ".mpq")).handle :=
  (language_reload_holds_second_only sampleOpLang ["d/"] none "de" "fr"
    (by decide) (by decide) (by decide)).1

/-- C8 counterexample: teardown on a state in which `gbBard` is enabled
leaves the flag enabled — refuting "teardown resets every feature flag,
including gbBard and gbBarbarian, to its default disabled state"
(`init_cleanup` at `init.cpp:162-190` clears the archive slots only and
never writes the flags). -/
theorem cleanup_leaves_bard_flag_set :
    (init_cleanup bardState).gbBard = true
      ∧ (init_cleanup bardState).hfbard_mpq = none := by
  decide

/-- C8 amended: teardown releases every held archive handle — every handle
slot is in the explicit empty state afterwards — but leaves the feature
flags `gbBard` and `gbBarbarian` unchanged rather than resetting them to
their default disabled state. -/
theorem cleanup_releases_handles_keeps_flags (st : InitState) :
    (init_cleanup st).spawn_mpq = none
      ∧ (init_cleanup st).diabdat_mpq = none
      ∧ (init_cleanup st).hellfire_mpq = none
      ∧ (init_cleanup st).hfmonk_mpq = none
      ∧ (init_cleanup st).hfbard_mpq = none
      ∧ (init_cleanup st).hfbarb_mpq = none
      ∧ (init_cleanup st).hfmusic_mpq = none
      ∧ (init_cleanup st).hfvoice_mpq = none
      ∧ (init_cleanup st).sotw_mpq = none
      ∧ (init_cleanup st).lang_mpq = none
      ∧ (init_cleanup st).font_mpq = none
      ∧ (init_cleanup st).gbBard = st.gbBard
      ∧ (init_cleanup st).gbBarbarian = st.gbBarbarian := by
  simp [init_cleanup]

/-- C10: in the unpacked-directory build, when the insert-media prompt does
not return to its caller while the archive is still absent (the
`insertCDReturns = false` mode), the hellfire data path is never
dereferenced while in the explicit empty state: the monk/music/voice file
probes are reached only with the optional holding a value. -/
theorem unpacked_no_deref_of_absent (fileExists : String → Bool)
    (paths : List String) (headless titleOk : Bool) :
    derefAbsentOf (LoadGameArchivesUnpacked fileExists paths headless titleOk false)
      = false := by
  unfold LoadGameArchivesUnpacked
  cases hp : (!headless && !titleOk) with
  | true => simp [hp, derefAbsentOf]
  | false =>
    cases hh : (FindUnpackedMpqData fileExists paths "hellfire").isNone with
    | true => simp [hp, hh, derefAbsentOf]
    | false => simp [hp, hh, derefAbsentOf]
